import Mathlib

/-!
Shallow embedding of the POSIX/signal supervision backend of honggfuzz
(`src/posix/arch.c`): the signal classification table `arch_sigs`, the crash
analyzer `arch_analyzeSignal`, the launcher's argument substitution in
`arch_launchChild`, and the supervision loop `arch_reapChild`.

Wait statuses are modelled as natural numbers, with the glibc encodings of the
`WIFEXITED` / `WIFSIGNALED` / `WIFCONTINUED` / `WTERMSIG` macros.  Side effects
of the analyzer (coverage hook, log lines, atomic counter increments, the file
copy) are modelled as an explicit event trace so that ordering and multiplicity
can be stated.  External outcomes (the wall-clock timestamp string, success of
`files_copyFile`) are inputs to the model.
-/

/-- glibc: number of signals; `arch_sigs` has `NSIG` entries. -/
def NSIG : Nat := 65

def SIGILL : Nat := 4
def SIGABRT : Nat := 6
def SIGBUS : Nat := 7
def SIGFPE : Nat := 8
def SIGSEGV : Nat := 11

/-- glibc `WTERMSIG(status)`: the low 7 bits of the status. -/
def wTermSig (status : Nat) : Nat := status % 128

/-- glibc `WEXITSTATUS(status)`: bits 8..15 of the status. -/
def wExitStatus (status : Nat) : Nat := status / 256 % 256

/-- glibc `WIFEXITED(status)`: the termination signal field is zero. -/
def wIfExited (status : Nat) : Bool := wTermSig status == 0

/-- glibc `WIFSIGNALED(status)`: the termination signal field is in `1..126`
(`((signed char)(((status & 0x7f) + 1) >> 1)) > 0`). -/
def wIfSignaled (status : Nat) : Bool :=
  decide (0 < wTermSig status) && decide (wTermSig status < 127)

/-- glibc `WIFCONTINUED(status)`: the status equals `0xffff`. -/
def wIfContinued (status : Nat) : Bool := status == 0xffff

/-- One row of the signal classification table. -/
structure SigEntry where
  important : Bool
  descr : String
deriving Repr, DecidableEq

/-- The `arch_sigs` table: every signal defaults to not-important / "UNKNOWN";
SIGILL, SIGFPE, SIGSEGV, SIGBUS and SIGABRT are overridden as important with
their names (the designated-initializer array in the source, as a lookup). -/
def arch_sigs (sig : Nat) : SigEntry :=
  if sig = SIGILL then ⟨true, "SIGILL"⟩
  else if sig = SIGFPE then ⟨true, "SIGFPE"⟩
  else if sig = SIGSEGV then ⟨true, "SIGSEGV"⟩
  else if sig = SIGBUS then ⟨true, "SIGBUS"⟩
  else if sig = SIGABRT then ⟨true, "SIGABRT"⟩
  else ⟨false, "UNKNOWN"⟩

/-- The fields of `honggfuzz_t` that this backend reads or writes. -/
structure Honggfuzz where
  cmdline : List String
  fuzzStdin : Bool
  workDir : String
  fileExtn : String
  origFlipRate : Rat
  useVerifier : Bool
  crashesCnt : Nat
  uniqueCrashesCnt : Nat
deriving Repr, DecidableEq

/-- The fields of `fuzzer_t` that this backend reads. -/
structure Fuzzer where
  pid : Nat
  fileName : String
  origFileName : String
deriving Repr, DecidableEq

/-- Observable side effects of one `arch_analyzeSignal` call, in program
order: the `sancov_Analyze` coverage hook, log lines, the two atomic counter
increments, and the attempted `files_copyFile` with its outcome. -/
inductive Event where
  | sancovAnalyze
  | logDebug
  | logInfo
  | logError
  | incCrashesCnt
  | incUniqueCrashesCnt
  | copyFile (src : String) (dst : String) (ok : Bool)
deriving Repr, DecidableEq

/-- Result of one `arch_analyzeSignal` call: the returned boolean, the
post-state of the shared context, and the trace of side effects. -/
structure AnalyzeResult where
  ret : Bool
  hfuzz : Honggfuzz
  events : List Event
deriving Repr, DecidableEq

/-- The crash-artifact destination name computed at lines 119-126 of
`src/posix/arch.c`: the bare `origFileName` in replay mode
(`origFlipRate == 0.0 && useVerifier`), otherwise
`{workDir}/{descr}.{pid}.{localtmstr}.{origFileName}.{fileExtn}`. -/
def crashDestName (hfuzz : Honggfuzz) (fuzzer : Fuzzer) (termsig : Nat)
    (localtmstr : String) : String :=
  if hfuzz.origFlipRate = 0 ∧ hfuzz.useVerifier = true then
    fuzzer.origFileName
  else
    hfuzz.workDir ++ "/" ++ (arch_sigs termsig).descr ++ "." ++ toString fuzzer.pid
      ++ "." ++ localtmstr ++ "." ++ fuzzer.origFileName ++ "." ++ hfuzz.fileExtn

/-- `arch_analyzeSignal` (lines 77-140 of `src/posix/arch.c`).  `localtmstr`
is the timestamp string produced by `util_getLocalTime`, and `copyOk` is the
outcome of the `files_copyFile` call; both are external inputs. -/
def arch_analyzeSignal (hfuzz : Honggfuzz) (status : Nat) (fuzzer : Fuzzer)
    (localtmstr : String) (copyOk : Bool) : AnalyzeResult :=
  if wIfContinued status then
    ⟨false, hfuzz, []⟩
  else
    let ev0 : List Event :=
      if wIfExited status || wIfSignaled status then [Event.sancovAnalyze] else []
    if wIfExited status then
      ⟨true, hfuzz, ev0 ++ [Event.logDebug]⟩
    else if !wIfSignaled status then
      ⟨true, hfuzz, ev0 ++ [Event.logError]⟩
    else
      let termsig := wTermSig status
      if !(arch_sigs termsig).important then
        ⟨true, hfuzz, ev0 ++ [Event.logDebug, Event.logDebug]⟩
      else
        let newname := crashDestName hfuzz fuzzer termsig localtmstr
        ⟨true,
         { hfuzz with crashesCnt := hfuzz.crashesCnt + 1,
                      uniqueCrashesCnt := hfuzz.uniqueCrashesCnt + 1 },
         ev0 ++ [Event.logDebug, Event.logInfo,
                 Event.incCrashesCnt, Event.incUniqueCrashesCnt,
                 Event.copyFile fuzzer.fileName newname copyOk]
             ++ (if copyOk then [] else [Event.logError])⟩

/-- `arch_reapChild` (lines 175-190): repeatedly wait on `fuzzer.pid` and feed
each observed status to `arch_analyzeSignal` until it reports determinate.
The input list supplies, per wait iteration, the observed status together with
the external timestamp and copy outcome for that iteration; `none` means the
supplied statuses were exhausted with the loop still waiting. -/
def arch_reapChild (hfuzz : Honggfuzz) (fuzzer : Fuzzer) :
    List (Nat × String × Bool) → Option (Honggfuzz × List Event)
  | [] => none
  | (status, tm, copyOk) :: rest =>
    let r := arch_analyzeSignal hfuzz status fuzzer tm copyOk
    if r.ret then some (r.hfuzz, r.events) else arch_reapChild r.hfuzz fuzzer rest

/-- Modelled from the spec: `util_getLocalTime` lives in `util.c`, which is
not among the provided sources.  The source calls it with the strftime format
`"%F.%H:%M:%S"`, which the spec fixes as `YYYY-MM-DD.HH:MM:SS`; zero-padding
of a two-digit field. -/
def pad2 (n : Nat) : String := if n < 10 then "0" ++ toString n else toString n

/-- Modelled from the spec: zero-padding of the four-digit year field of the
`YYYY-MM-DD.HH:MM:SS` timestamp. -/
def pad4 (n : Nat) : String :=
  if n < 10 then "000" ++ toString n
  else if n < 100 then "00" ++ toString n
  else if n < 1000 then "0" ++ toString n
  else toString n

/-- Modelled from the spec: `util_getLocalTime` with format `"%F.%H:%M:%S"`
renders the wall-clock time as `YYYY-MM-DD.HH:MM:SS`. -/
def util_getLocalTime (year month day hour minute second : Nat) : String :=
  pad4 year ++ "-" ++ pad2 month ++ "-" ++ pad2 day ++ "."
    ++ pad2 hour ++ ":" ++ pad2 minute ++ ":" ++ pad2 second

/-- Modelled from the spec: the file-placeholder token `_HF_FILE_PLACEHOLDER`
is defined in `common.h`, which is not among the provided sources; the spec's
substitution examples use the token `@@`. -/
def _HF_FILE_PLACEHOLDER : String := "@@"

/-- `ARGS_MAX` (line 149): the launcher copies at most 512 template
arguments. -/
def ARGS_MAX : Nat := 512

/-- Index of the first occurrence of `needle` in `hay` (C `strstr`), on
character lists; `none` when `needle` does not occur. -/
def strstrIdx (hay needle : List Char) : Option Nat :=
  if needle.isPrefixOf hay then some 0
  else
    match hay with
    | [] => none
    | _ :: t => (strstrIdx t needle).map (· + 1)

/-- C `strstr` on strings: index of the first occurrence of `needle`. -/
def strstr (hay needle : String) : Option Nat := strstrIdx hay.toList needle.toList

/-- The `snprintf(argData, PATH_MAX, "%.*s%s", off - cmdline[x], cmdline[x],
fileName)` splice at lines 158-160: the text of `arg` before the first
occurrence of `placeholder`, followed by `fileName` (when the placeholder does
not occur, the argument is left as is; for an exact match the whole argument
becomes `fileName`). -/
def spliceArg (arg placeholder fileName : String) : String :=
  match strstr arg placeholder with
  | some i => String.mk (arg.toList.take i) ++ fileName
  | none => arg

/-- What `args[x]` is set to point at in the loop at lines 154-165: either a
fixed string (`fileName` on an exact placeholder match, or the template
argument itself), or the single shared `argData` buffer (substring-splice
case, lines 157-161). -/
inductive ArgSlot where
  | ptr (s : String)
  | buf
deriving Repr, DecidableEq

/-- Classification of one template argument by the branch taken at lines
155-163: exact placeholder match (and not stdin-fuzzing) points at `fileName`;
placeholder occurring as a substring (and not stdin-fuzzing) points at the
shared `argData` buffer; otherwise the argument is passed through. -/
def classifyArg (fuzzStdin : Bool) (placeholder fileName arg : String) : ArgSlot :=
  if !fuzzStdin && arg == placeholder then ArgSlot.ptr fileName
  else if !fuzzStdin && (strstr arg placeholder).isSome then ArgSlot.buf
  else ArgSlot.ptr arg

/-- Content of the shared `argData` buffer after the loop: each
substring-splice iteration overwrites it, so it holds the splice computed for
the last argument classified `buf` (and stays zero-initialised, i.e. empty,
when no argument is spliced). -/
def finalArgData (fuzzStdin : Bool) (placeholder fileName : String)
    (cmdline : List String) : String :=
  cmdline.foldl
    (fun acc arg =>
      if classifyArg fuzzStdin placeholder fileName arg = ArgSlot.buf then
        spliceArg arg placeholder fileName
      else acc)
    ""

/-- The argument vector `arch_launchChild` (lines 147-171) hands to `execvp`
(without the terminating NULL): the first `ARGS_MAX` template arguments, each
slot dereferenced after the loop, so every `buf` slot reads the final content
of the shared `argData` buffer. -/
def arch_launchChild_args (hfuzz : Honggfuzz) (placeholder fileName : String) :
    List String :=
  (hfuzz.cmdline.take ARGS_MAX).map fun arg =>
    match classifyArg hfuzz.fuzzStdin placeholder fileName arg with
    | ArgSlot.ptr s => s
    | ArgSlot.buf =>
        finalArgData hfuzz.fuzzStdin placeholder fileName (hfuzz.cmdline.take ARGS_MAX)

/-! Concrete instances used by the witness theorems. -/

/-- A sample shared context in normal (non-replay) mode. -/
def sampleHf : Honggfuzz :=
  ⟨["target", "--in=@@", "rest"], false, "/out", "fuzz", 1/20, false, 0, 0⟩

/-- A sample shared context in replay mode (`origFlipRate = 0`, verifier on). -/
def sampleHfReplay : Honggfuzz :=
  ⟨["target", "--in=@@", "rest"], false, "/out", "fuzz", 0, true, 0, 0⟩

/-- A sample per-run state. -/
def sampleFz : Fuzzer := ⟨4242, "/tmp/mut", "seed1"⟩

/-- A context whose template has two arguments that both contain the
placeholder `@@` as a proper substring. -/
def sampleHfAlias : Honggfuzz := ⟨["a@@b", "c@@d"], false, "/out", "fuzz", 1, false, 0, 0⟩

/-! Branch characterizations of `arch_analyzeSignal`, shared by the claim
theorems below. -/

theorem wIfContinued_false_of_exited (status : Nat) (h : wIfExited status = true) :
    wIfContinued status = false := by
  simp [wIfExited, wTermSig] at h
  simp [wIfContinued]
  omega

theorem wIfContinued_false_of_signaled (status : Nat) (h : wIfSignaled status = true) :
    wIfContinued status = false := by
  simp [wIfSignaled, wTermSig] at h
  simp [wIfContinued]
  omega

theorem wIfExited_false_of_signaled (status : Nat) (h : wIfSignaled status = true) :
    wIfExited status = false := by
  simp [wIfSignaled, wTermSig] at h
  simp [wIfExited, wTermSig]
  omega

theorem arch_analyzeSignal_continued_eq (hfuzz : Honggfuzz) (status : Nat)
    (fuzzer : Fuzzer) (tm : String) (c : Bool) (h : wIfContinued status = true) :
    arch_analyzeSignal hfuzz status fuzzer tm c = ⟨false, hfuzz, []⟩ := by
  simp [arch_analyzeSignal, h]

theorem arch_analyzeSignal_exited_eq (hfuzz : Honggfuzz) (status : Nat)
    (fuzzer : Fuzzer) (tm : String) (c : Bool) (h : wIfExited status = true) :
    arch_analyzeSignal hfuzz status fuzzer tm c =
      ⟨true, hfuzz, [Event.sancovAnalyze, Event.logDebug]⟩ := by
  simp [arch_analyzeSignal, wIfContinued_false_of_exited status h, h]

theorem arch_analyzeSignal_unexpected_eq (hfuzz : Honggfuzz) (status : Nat)
    (fuzzer : Fuzzer) (tm : String) (c : Bool) (hc : wIfContinued status = false)
    (he : wIfExited status = false) (hs : wIfSignaled status = false) :
    arch_analyzeSignal hfuzz status fuzzer tm c = ⟨true, hfuzz, [Event.logError]⟩ := by
  simp [arch_analyzeSignal, hc, he, hs]

theorem arch_analyzeSignal_boring_eq (hfuzz : Honggfuzz) (status : Nat)
    (fuzzer : Fuzzer) (tm : String) (c : Bool) (hs : wIfSignaled status = true)
    (hi : (arch_sigs (wTermSig status)).important = false) :
    arch_analyzeSignal hfuzz status fuzzer tm c =
      ⟨true, hfuzz, [Event.sancovAnalyze, Event.logDebug, Event.logDebug]⟩ := by
  simp [arch_analyzeSignal, wIfContinued_false_of_signaled status hs,
    wIfExited_false_of_signaled status hs, hs, hi]

theorem arch_analyzeSignal_crash_eq (hfuzz : Honggfuzz) (status : Nat)
    (fuzzer : Fuzzer) (tm : String) (c : Bool) (hs : wIfSignaled status = true)
    (hi : (arch_sigs (wTermSig status)).important = true) :
    arch_analyzeSignal hfuzz status fuzzer tm c =
      ⟨true,
       { hfuzz with crashesCnt := hfuzz.crashesCnt + 1,
                    uniqueCrashesCnt := hfuzz.uniqueCrashesCnt + 1 },
       [Event.sancovAnalyze, Event.logDebug, Event.logInfo, Event.incCrashesCnt,
        Event.incUniqueCrashesCnt,
        Event.copyFile fuzzer.fileName (crashDestName hfuzz fuzzer (wTermSig status) tm) c]
         ++ (if c then [] else [Event.logError])⟩ := by
  simp [arch_analyzeSignal, wIfContinued_false_of_signaled status hs,
    wIfExited_false_of_signaled status hs, hs, hi]

theorem wIfSignaled_of_crashsig (status sig : Nat)
    (hsig : sig = SIGILL ∨ sig = SIGFPE ∨ sig = SIGSEGV ∨ sig = SIGBUS ∨ sig = SIGABRT)
    (hterm : wTermSig status = sig) : wIfSignaled status = true := by
  simp [wIfSignaled, hterm]
  simp [SIGILL, SIGFPE, SIGSEGV, SIGBUS, SIGABRT] at hsig
  omega

theorem arch_sigs_important_of_crashsig (sig : Nat)
    (hsig : sig = SIGILL ∨ sig = SIGFPE ∨ sig = SIGSEGV ∨ sig = SIGBUS ∨ sig = SIGABRT) :
    (arch_sigs sig).important = true := by
  rcases hsig with rfl | rfl | rfl | rfl | rfl <;> decide

/-- C1: a termination by any of the five crash-worthy signals makes
`arch_analyzeSignal` return true, increment both `crashesCnt` and
`uniqueCrashesCnt` by exactly one, and attempt the copy of the candidate
input file to the computed destination; when the copy fails only a diagnostic
is recorded, with the increments untouched. -/
theorem arch_analyzeSignal_crashworthy_counts_and_saves
    (hfuzz : Honggfuzz) (status : Nat) (fuzzer : Fuzzer) (tm : String)
    (copyOk : Bool) (sig : Nat)
    (hsig : sig = SIGILL ∨ sig = SIGFPE ∨ sig = SIGSEGV ∨ sig = SIGBUS ∨ sig = SIGABRT)
    (hterm : wTermSig status = sig) :
    (arch_analyzeSignal hfuzz status fuzzer tm copyOk).ret = true ∧
    (arch_analyzeSignal hfuzz status fuzzer tm copyOk).hfuzz.crashesCnt
      = hfuzz.crashesCnt + 1 ∧
    (arch_analyzeSignal hfuzz status fuzzer tm copyOk).hfuzz.uniqueCrashesCnt
      = hfuzz.uniqueCrashesCnt + 1 ∧
    Event.copyFile fuzzer.fileName (crashDestName hfuzz fuzzer sig tm) copyOk
      ∈ (arch_analyzeSignal hfuzz status fuzzer tm copyOk).events ∧
    (copyOk = false →
      Event.logError ∈ (arch_analyzeSignal hfuzz status fuzzer tm copyOk).events) := by
  have hs := wIfSignaled_of_crashsig status sig hsig hterm
  have hi : (arch_sigs (wTermSig status)).important = true := by
    rw [hterm]; exact arch_sigs_important_of_crashsig sig hsig
  rw [arch_analyzeSignal_crash_eq hfuzz status fuzzer tm copyOk hs hi]
  refine ⟨rfl, rfl, rfl, ?_, ?_⟩
  · rw [hterm]; simp
  · intro hcopy; subst hcopy; simp

/-- Witness for C1 at the concrete status 11 (killed by SIGSEGV), with the
copy failing. -/
theorem arch_analyzeSignal_crashworthy_counts_and_saves_witness :
    (arch_analyzeSignal sampleHf 11 sampleFz "2024-01-02.10:00:00" false).ret = true ∧
    (arch_analyzeSignal sampleHf 11 sampleFz "2024-01-02.10:00:00" false).hfuzz.crashesCnt
      = sampleHf.crashesCnt + 1 ∧
    (arch_analyzeSignal sampleHf 11 sampleFz "2024-01-02.10:00:00" false).hfuzz.uniqueCrashesCnt
      = sampleHf.uniqueCrashesCnt + 1 ∧
    Event.copyFile sampleFz.fileName
        (crashDestName sampleHf sampleFz SIGSEGV "2024-01-02.10:00:00") false
      ∈ (arch_analyzeSignal sampleHf 11 sampleFz "2024-01-02.10:00:00" false).events ∧
    (false = false →
      Event.logError
        ∈ (arch_analyzeSignal sampleHf 11 sampleFz "2024-01-02.10:00:00" false).events) :=
  arch_analyzeSignal_crashworthy_counts_and_saves sampleHf 11 sampleFz
    "2024-01-02.10:00:00" false SIGSEGV (by decide) (by decide)

/-- C2: a normal exit, or a termination by a signal the table marks not
important, is determinate and has no crash side effects: the shared context
(in particular both counters) is unchanged and no counter-increment or
file-copy event occurs. -/
theorem arch_analyzeSignal_boring_no_crash_effects
    (hfuzz : Honggfuzz) (status : Nat) (fuzzer : Fuzzer) (tm : String) (copyOk : Bool)
    (h : wIfExited status = true ∨
      (wIfSignaled status = true ∧ (arch_sigs (wTermSig status)).important = false)) :
    (arch_analyzeSignal hfuzz status fuzzer tm copyOk).ret = true ∧
    (arch_analyzeSignal hfuzz status fuzzer tm copyOk).hfuzz = hfuzz ∧
    Event.incCrashesCnt ∉ (arch_analyzeSignal hfuzz status fuzzer tm copyOk).events ∧
    Event.incUniqueCrashesCnt ∉ (arch_analyzeSignal hfuzz status fuzzer tm copyOk).events ∧
    ∀ src dst ok, Event.copyFile src dst ok
      ∉ (arch_analyzeSignal hfuzz status fuzzer tm copyOk).events := by
  rcases h with he | ⟨hs, hi⟩
  · rw [arch_analyzeSignal_exited_eq hfuzz status fuzzer tm copyOk he]
    refine ⟨rfl, rfl, by simp, by simp, by simp⟩
  · rw [arch_analyzeSignal_boring_eq hfuzz status fuzzer tm copyOk hs hi]
    refine ⟨rfl, rfl, by simp, by simp, by simp⟩

/-- Witness for C2 at the concrete status 15, a termination by the
non-crash-worthy signal SIGTERM. -/
theorem arch_analyzeSignal_boring_no_crash_effects_witness :
    (arch_analyzeSignal sampleHf 15 sampleFz "tm" true).ret = true ∧
    (arch_analyzeSignal sampleHf 15 sampleFz "tm" true).hfuzz = sampleHf ∧
    Event.incCrashesCnt ∉ (arch_analyzeSignal sampleHf 15 sampleFz "tm" true).events ∧
    Event.incUniqueCrashesCnt ∉ (arch_analyzeSignal sampleHf 15 sampleFz "tm" true).events ∧
    ∀ src dst ok, Event.copyFile src dst ok
      ∉ (arch_analyzeSignal sampleHf 15 sampleFz "tm" true).events :=
  arch_analyzeSignal_boring_no_crash_effects sampleHf 15 sampleFz "tm" true
    (Or.inr ⟨by decide, by decide⟩)

/-- C3: in replay mode (`origFlipRate` exactly zero and `useVerifier` true),
the destination of the attempted artifact copy for any accepted crash is
exactly `origFileName`, with no decoration, for every crash-worthy signal and
every pid. -/
theorem arch_analyzeSignal_replay_artifact_name
    (hfuzz : Honggfuzz) (status : Nat) (fuzzer : Fuzzer) (tm : String)
    (copyOk : Bool) (sig : Nat)
    (hflip : hfuzz.origFlipRate = 0) (hver : hfuzz.useVerifier = true)
    (hsig : sig = SIGILL ∨ sig = SIGFPE ∨ sig = SIGSEGV ∨ sig = SIGBUS ∨ sig = SIGABRT)
    (hterm : wTermSig status = sig) :
    Event.copyFile fuzzer.fileName fuzzer.origFileName copyOk
      ∈ (arch_analyzeSignal hfuzz status fuzzer tm copyOk).events := by
  have hs := wIfSignaled_of_crashsig status sig hsig hterm
  have hi : (arch_sigs (wTermSig status)).important = true := by
    rw [hterm]; exact arch_sigs_important_of_crashsig sig hsig
  rw [arch_analyzeSignal_crash_eq hfuzz status fuzzer tm copyOk hs hi]
  have hname : crashDestName hfuzz fuzzer (wTermSig status) tm = fuzzer.origFileName := by
    simp [crashDestName, hflip, hver]
  rw [hname]
  simp

/-- Witness for C3: with the replay-mode context, a SIGBUS termination (status
7) copies to the bare name "seed1". -/
theorem arch_analyzeSignal_replay_artifact_name_witness :
    Event.copyFile sampleFz.fileName sampleFz.origFileName true
      ∈ (arch_analyzeSignal sampleHfReplay 7 sampleFz "tm" true).events :=
  arch_analyzeSignal_replay_artifact_name sampleHfReplay 7 sampleFz "tm" true SIGBUS
    (by simp [sampleHfReplay]) (by simp [sampleHfReplay]) (by decide) (by decide)

/-- C4: outside replay mode, the destination of the attempted artifact copy
for an accepted crash is
`{workDir}/{SIGNAL_NAME}.{pid}.{YYYY-MM-DD.HH:MM:SS}.{originalFileName}.{fileExtension}`,
with the timestamp rendered by `util_getLocalTime`, in that fixed order. -/
theorem arch_analyzeSignal_normal_artifact_path
    (hfuzz : Honggfuzz) (status : Nat) (fuzzer : Fuzzer) (copyOk : Bool) (sig : Nat)
    (year month day hour minute second : Nat)
    (hmode : ¬(hfuzz.origFlipRate = 0 ∧ hfuzz.useVerifier = true))
    (hsig : sig = SIGILL ∨ sig = SIGFPE ∨ sig = SIGSEGV ∨ sig = SIGBUS ∨ sig = SIGABRT)
    (hterm : wTermSig status = sig) :
    Event.copyFile fuzzer.fileName
        (hfuzz.workDir ++ "/" ++ (arch_sigs sig).descr ++ "." ++ toString fuzzer.pid
          ++ "." ++ util_getLocalTime year month day hour minute second
          ++ "." ++ fuzzer.origFileName ++ "." ++ hfuzz.fileExtn) copyOk
      ∈ (arch_analyzeSignal hfuzz status fuzzer
          (util_getLocalTime year month day hour minute second) copyOk).events := by
  have hs := wIfSignaled_of_crashsig status sig hsig hterm
  have hi : (arch_sigs (wTermSig status)).important = true := by
    rw [hterm]; exact arch_sigs_important_of_crashsig sig hsig
  rw [arch_analyzeSignal_crash_eq hfuzz status fuzzer _ copyOk hs hi]
  have hname : crashDestName hfuzz fuzzer (wTermSig status)
      (util_getLocalTime year month day hour minute second)
      = hfuzz.workDir ++ "/" ++ (arch_sigs sig).descr ++ "." ++ toString fuzzer.pid
          ++ "." ++ util_getLocalTime year month day hour minute second
          ++ "." ++ fuzzer.origFileName ++ "." ++ hfuzz.fileExtn := by
    rw [crashDestName, if_neg hmode, hterm]
  rw [hname]
  simp

/-- Witness for C4: the spec's scenario — SIGSEGV (status 11), pid 4242,
originalFileName "seed1", extension "fuzz", workDir "/out", verifier off,
flip rate 0.05, local time 2024-01-02 10:00:00 — copies to
`/out/SIGSEGV.4242.2024-01-02.10:00:00.seed1.fuzz`. -/
theorem arch_analyzeSignal_normal_artifact_path_witness :
    Event.copyFile "/tmp/mut" "/out/SIGSEGV.4242.2024-01-02.10:00:00.seed1.fuzz" true
      ∈ (arch_analyzeSignal sampleHf 11 sampleFz
          (util_getLocalTime 2024 1 2 10 0 0) true).events := by
  have h := arch_analyzeSignal_normal_artifact_path sampleHf 11 sampleFz true SIGSEGV
    2024 1 2 10 0 0 (by simp [sampleHf]) (by decide) (by decide)
  simpa using h

/-- C6: a "continued" (job-control resume) status makes `arch_analyzeSignal`
return false with no side effect at all, and `arch_reapChild` absorbs the
status and keeps waiting on the same child (same `fuzzer`, hence the same
pid) with the shared context unchanged. -/
theorem arch_analyzeSignal_continued_keeps_waiting
    (hfuzz : Honggfuzz) (status : Nat) (fuzzer : Fuzzer) (tm : String) (copyOk : Bool)
    (rest : List (Nat × String × Bool)) (h : wIfContinued status = true) :
    arch_analyzeSignal hfuzz status fuzzer tm copyOk = ⟨false, hfuzz, []⟩ ∧
    arch_reapChild hfuzz fuzzer ((status, tm, copyOk) :: rest)
      = arch_reapChild hfuzz fuzzer rest := by
  refine ⟨arch_analyzeSignal_continued_eq hfuzz status fuzzer tm copyOk h, ?_⟩
  rw [arch_reapChild]
  simp [arch_analyzeSignal_continued_eq hfuzz status fuzzer tm copyOk h]

/-- Witness for C6 at the concrete continued status `0xffff`, followed by a
SIGSEGV termination. -/
theorem arch_analyzeSignal_continued_keeps_waiting_witness :
    arch_analyzeSignal sampleHf 65535 sampleFz "tm" true = ⟨false, sampleHf, []⟩ ∧
    arch_reapChild sampleHf sampleFz ((65535, "tm", true) :: [(11, "tm", true)])
      = arch_reapChild sampleHf sampleFz [(11, "tm", true)] :=
  arch_analyzeSignal_continued_keeps_waiting sampleHf 65535 sampleFz "tm" true
    [(11, "tm", true)] (by decide)

/-- C7: for every terminal status (normal exit or signal termination), the
coverage hook `sancov_Analyze` is the very first event of the analyzer's
trace and occurs in it exactly once, so it precedes every crash-persistence
side effect (counter increments, artifact copy) of the same termination. -/
theorem arch_analyzeSignal_coverage_hook_once_before_persistence
    (hfuzz : Honggfuzz) (status : Nat) (fuzzer : Fuzzer) (tm : String) (copyOk : Bool)
    (h : wIfExited status = true ∨ wIfSignaled status = true) :
    ∃ tl, (arch_analyzeSignal hfuzz status fuzzer tm copyOk).events
        = Event.sancovAnalyze :: tl ∧ Event.sancovAnalyze ∉ tl := by
  rcases h with he | hs
  · rw [arch_analyzeSignal_exited_eq hfuzz status fuzzer tm copyOk he]
    exact ⟨[Event.logDebug], rfl, by simp⟩
  · by_cases hi : (arch_sigs (wTermSig status)).important = true
    · rw [arch_analyzeSignal_crash_eq hfuzz status fuzzer tm copyOk hs hi]
      refine ⟨[Event.logDebug, Event.logInfo, Event.incCrashesCnt,
        Event.incUniqueCrashesCnt,
        Event.copyFile fuzzer.fileName
          (crashDestName hfuzz fuzzer (wTermSig status) tm) copyOk]
          ++ (if copyOk then [] else [Event.logError]), rfl, ?_⟩
      cases copyOk <;> simp
    · rw [arch_analyzeSignal_boring_eq hfuzz status fuzzer tm copyOk hs
        (Bool.not_eq_true _ ▸ hi)]
      exact ⟨[Event.logDebug, Event.logDebug], rfl, by simp⟩

/-- Witness for C7 at the concrete status 6 (killed by SIGABRT). -/
theorem arch_analyzeSignal_coverage_hook_once_before_persistence_witness :
    ∃ tl, (arch_analyzeSignal sampleHf 6 sampleFz "tm" true).events
        = Event.sancovAnalyze :: tl ∧ Event.sancovAnalyze ∉ tl :=
  arch_analyzeSignal_coverage_hook_once_before_persistence sampleHf 6 sampleFz "tm" true
    (Or.inr (by decide))

/-- C8: a status that is neither a continued notification, nor a normal exit,
nor a signal termination, yields exactly one error diagnostic, returns true,
and leaves the shared context untouched — no coverage hook, no artifact, no
counters, and no fatal error. -/
theorem arch_analyzeSignal_unexpected_status_diagnostic
    (hfuzz : Honggfuzz) (status : Nat) (fuzzer : Fuzzer) (tm : String) (copyOk : Bool)
    (hc : wIfContinued status = false) (he : wIfExited status = false)
    (hs : wIfSignaled status = false) :
    arch_analyzeSignal hfuzz status fuzzer tm copyOk = ⟨true, hfuzz, [Event.logError]⟩ :=
  arch_analyzeSignal_unexpected_eq hfuzz status fuzzer tm copyOk hc he hs

/-- Witness for C8 at the concrete status `0x057f` (a job-control "stopped by
SIGTRAP" encoding, which is neither continued, exited, nor signaled). -/
theorem arch_analyzeSignal_unexpected_status_diagnostic_witness :
    arch_analyzeSignal sampleHf 1407 sampleFz "tm" true
      = ⟨true, sampleHf, [Event.logError]⟩ :=
  arch_analyzeSignal_unexpected_status_diagnostic sampleHf 1407 sampleFz "tm" true
    (by decide) (by decide) (by decide)

/-- C9: `arch_analyzeSignal` preserves `uniqueCrashesCnt ≤ crashesCnt`: for
every input status it either leaves both counters unchanged or increments
both by exactly one, and it keeps the two counters equal when they were
equal. -/
theorem arch_analyzeSignal_counter_invariant
    (hfuzz : Honggfuzz) (status : Nat) (fuzzer : Fuzzer) (tm : String) (copyOk : Bool)
    (hinv : hfuzz.uniqueCrashesCnt ≤ hfuzz.crashesCnt) :
    (arch_analyzeSignal hfuzz status fuzzer tm copyOk).hfuzz.uniqueCrashesCnt
      ≤ (arch_analyzeSignal hfuzz status fuzzer tm copyOk).hfuzz.crashesCnt ∧
    (((arch_analyzeSignal hfuzz status fuzzer tm copyOk).hfuzz.crashesCnt
        = hfuzz.crashesCnt ∧
      (arch_analyzeSignal hfuzz status fuzzer tm copyOk).hfuzz.uniqueCrashesCnt
        = hfuzz.uniqueCrashesCnt) ∨
     ((arch_analyzeSignal hfuzz status fuzzer tm copyOk).hfuzz.crashesCnt
        = hfuzz.crashesCnt + 1 ∧
      (arch_analyzeSignal hfuzz status fuzzer tm copyOk).hfuzz.uniqueCrashesCnt
        = hfuzz.uniqueCrashesCnt + 1)) ∧
    (hfuzz.uniqueCrashesCnt = hfuzz.crashesCnt →
      (arch_analyzeSignal hfuzz status fuzzer tm copyOk).hfuzz.uniqueCrashesCnt
        = (arch_analyzeSignal hfuzz status fuzzer tm copyOk).hfuzz.crashesCnt) := by
  by_cases hc : wIfContinued status = true
  · rw [arch_analyzeSignal_continued_eq hfuzz status fuzzer tm copyOk hc]
    exact ⟨hinv, Or.inl ⟨rfl, rfl⟩, fun h => h⟩
  · by_cases he : wIfExited status = true
    · rw [arch_analyzeSignal_exited_eq hfuzz status fuzzer tm copyOk he]
      exact ⟨hinv, Or.inl ⟨rfl, rfl⟩, fun h => h⟩
    · by_cases hs : wIfSignaled status = true
      · by_cases hi : (arch_sigs (wTermSig status)).important = true
        · rw [arch_analyzeSignal_crash_eq hfuzz status fuzzer tm copyOk hs hi]
          exact ⟨by simpa using hinv, Or.inr ⟨rfl, rfl⟩, fun h => by simpa using h⟩
        · rw [arch_analyzeSignal_boring_eq hfuzz status fuzzer tm copyOk hs
            (Bool.not_eq_true _ ▸ hi)]
          exact ⟨hinv, Or.inl ⟨rfl, rfl⟩, fun h => h⟩
      · rw [arch_analyzeSignal_unexpected_eq hfuzz status fuzzer tm copyOk
          (Bool.not_eq_true _ ▸ hc) (Bool.not_eq_true _ ▸ he) (Bool.not_eq_true _ ▸ hs)]
        exact ⟨hinv, Or.inl ⟨rfl, rfl⟩, fun h => h⟩

/-- Witness for C9 at the concrete status 8 (killed by SIGFPE), starting from
counters (3, 2). -/
theorem arch_analyzeSignal_counter_invariant_witness :
    ({ sampleHf with crashesCnt := 3, uniqueCrashesCnt := 2 } :
        Honggfuzz).uniqueCrashesCnt
      ≤ ({ sampleHf with crashesCnt := 3, uniqueCrashesCnt := 2 } :
        Honggfuzz).crashesCnt ∧
    (arch_analyzeSignal { sampleHf with crashesCnt := 3, uniqueCrashesCnt := 2 }
        8 sampleFz "tm" true).hfuzz.uniqueCrashesCnt
      ≤ (arch_analyzeSignal { sampleHf with crashesCnt := 3, uniqueCrashesCnt := 2 }
        8 sampleFz "tm" true).hfuzz.crashesCnt := by
  refine ⟨by decide, ?_⟩
  exact (arch_analyzeSignal_counter_invariant
    { sampleHf with crashesCnt := 3, uniqueCrashesCnt := 2 } 8 sampleFz "tm" true
    (by decide)).1

/-! Helper lemmas about the launcher's shared `argData` buffer. -/

theorem strstrIdx_self (l : List Char) : strstrIdx l l = some 0 := by
  unfold strstrIdx
  rw [if_pos (List.isPrefixOf_iff_prefix.mpr (List.prefix_refl l))]

theorem spliceArg_exact (s fileName : String) : spliceArg s s fileName = fileName := by
  unfold spliceArg strstr
  rw [strstrIdx_self]
  rfl

theorem spliceArg_of_absent (arg placeholder fileName : String)
    (h : strstr arg placeholder = none) : spliceArg arg placeholder fileName = arg := by
  unfold spliceArg
  rw [h]

theorem finalArgData_foldl_filter (stdin : Bool) (placeholder fileName : String)
    (l : List String) (init : String) :
    l.foldl
      (fun acc arg =>
        if classifyArg stdin placeholder fileName arg = ArgSlot.buf then
          spliceArg arg placeholder fileName
        else acc)
      init
    = (l.filter fun a => classifyArg stdin placeholder fileName a == ArgSlot.buf).foldl
        (fun _ a => spliceArg a placeholder fileName) init := by
  induction l generalizing init with
  | nil => rfl
  | cons a t ih =>
    by_cases h : classifyArg stdin placeholder fileName a = ArgSlot.buf
    · simp only [List.foldl_cons, List.filter_cons, h, if_pos, beq_self_eq_true, ite_true]
      exact ih (spliceArg a placeholder fileName)
    · have hb : (classifyArg stdin placeholder fileName a == ArgSlot.buf) = false := by
        simpa using h
      simp only [List.foldl_cons, List.filter_cons, if_neg h, hb, Bool.false_eq_true,
        ite_false]
      exact ih init

theorem foldl_replace_last {α : Type} (f : α → String) (l : List α) (b : α) (init : String)
    (h : l.getLast? = some b) : l.foldl (fun _ a => f a) init = f b := by
  induction l generalizing init with
  | nil => simp at h
  | cons a t ih =>
    cases t with
    | nil =>
      simp at h
      subst h
      rfl
    | cons c u =>
      rw [List.getLast?_cons_cons] at h
      exact ih (f a) h

theorem finalArgData_eq_last_splice (stdin : Bool) (placeholder fileName : String)
    (l : List String) (b : String)
    (h : (l.filter fun a => classifyArg stdin placeholder fileName a == ArgSlot.buf).getLast?
      = some b) :
    finalArgData stdin placeholder fileName l = spliceArg b placeholder fileName := by
  unfold finalArgData
  rw [finalArgData_foldl_filter]
  exact foldl_replace_last (fun a => spliceArg a placeholder fileName) _ b "" h

theorem filter_eq_singleton_of_length_le_one {α : Type} (p : α → Bool) (l : List α) (a : α)
    (hlen : (l.filter p).length ≤ 1) (ha : a ∈ l) (hpa : p a = true) :
    l.filter p = [a] := by
  have hmem : a ∈ l.filter p := List.mem_filter.mpr ⟨ha, hpa⟩
  cases hfl : l.filter p with
  | nil => rw [hfl] at hmem; exact absurd hmem (List.not_mem_nil a)
  | cons b t =>
    rw [hfl] at hmem hlen
    cases t with
    | nil =>
      have hab : a = b := by simpa using hmem
      subst hab
      rfl
    | cons c u => simp at hlen

/-- Counterexample to C5 as stated: with template `["a@@b", "c@@d"]` and
input `/f`, per-argument splicing would give `["a/f", "c/f"]`, but the
launcher produces `["c/f", "c/f"]` because both slots read the shared
`argData` buffer. -/
theorem arch_launchChild_per_arg_splice_cex :
    arch_launchChild_args sampleHfAlias "@@" "/f" = ["c/f", "c/f"] ∧
    (sampleHfAlias.cmdline.map fun a => spliceArg a "@@" "/f") = ["a/f", "c/f"] ∧
    arch_launchChild_args sampleHfAlias "@@" "/f"
      ≠ (sampleHfAlias.cmdline.map fun a => spliceArg a "@@" "/f") := by
  refine ⟨by decide, by decide, by decide⟩

/-- C5 (amended): when at most one template argument contains the placeholder
as a substring without being an exact match, the launcher's substitution is
exactly per-argument: with `fuzzStdin` every argument is untouched, an exact
placeholder match becomes the input path, a proper substring occurrence is
spliced (text before the token kept, input path at the token), an argument
without the token is unchanged. -/
theorem arch_launchChild_subst_single_splice (hfuzz : Honggfuzz)
    (placeholder fileName : String)
    (hbuf : ((hfuzz.cmdline.take ARGS_MAX).filter
        fun a => classifyArg hfuzz.fuzzStdin placeholder fileName a == ArgSlot.buf).length
      ≤ 1) :
    arch_launchChild_args hfuzz placeholder fileName
      = (hfuzz.cmdline.take ARGS_MAX).map
          fun a => if hfuzz.fuzzStdin then a else spliceArg a placeholder fileName := by
  unfold arch_launchChild_args
  apply List.map_congr_left
  intro a ha
  by_cases hst : hfuzz.fuzzStdin = true
  · simp [classifyArg, hst]
  · have hst' : hfuzz.fuzzStdin = false := by simpa using hst
    rw [hst'] at hbuf ⊢
    by_cases h1 : a = placeholder
    · rw [h1]
      have hcl : classifyArg false placeholder fileName placeholder = ArgSlot.ptr fileName := by
        simp [classifyArg]
      simp [hcl, spliceArg_exact]
    · by_cases h2 : (strstr a placeholder).isSome = true
      · have hcl : classifyArg false placeholder fileName a = ArgSlot.buf := by
          simp [classifyArg, h1, h2]
        have hfil := filter_eq_singleton_of_length_le_one
          (fun x => classifyArg false placeholder fileName x == ArgSlot.buf)
          (hfuzz.cmdline.take ARGS_MAX) a hbuf ha (by simp [hcl])
        simp [hcl, finalArgData_eq_last_splice false placeholder fileName _ a
          (by rw [hfil]; rfl)]
      · have hnone : strstr a placeholder = none :=
          Option.not_isSome_iff_eq_none.mp (by simpa using h2)
        have hcl : classifyArg false placeholder fileName a = ArgSlot.ptr a := by
          simp [classifyArg, h1, h2]
        simp [hcl, spliceArg_of_absent a placeholder fileName hnone]

/-- Witness for C5 (amended) on the spec's example: template
`["target", "--in=@@", "rest"]` with input `/tmp/f1` yields
`["target", "--in=/tmp/f1", "rest"]` without stdin fuzzing, and is unchanged
with stdin fuzzing. -/
theorem arch_launchChild_subst_single_splice_witness :
    ((sampleHf.cmdline.take ARGS_MAX).filter
        fun a => classifyArg sampleHf.fuzzStdin "@@" "/tmp/f1" a == ArgSlot.buf).length
      ≤ 1 ∧
    arch_launchChild_args sampleHf "@@" "/tmp/f1"
      = ["target", "--in=/tmp/f1", "rest"] ∧
    arch_launchChild_args { sampleHf with fuzzStdin := true } "@@" "/tmp/f1"
      = ["target", "--in=@@", "rest"] := by
  refine ⟨by decide, ?_, ?_⟩
  · rw [arch_launchChild_subst_single_splice sampleHf "@@" "/tmp/f1" (by decide)]
    decide
  · rw [arch_launchChild_subst_single_splice { sampleHf with fuzzStdin := true }
      "@@" "/tmp/f1" (by decide)]
    decide

/-- C10: when `fuzzStdin` is false, every argument slot whose template
argument contains the placeholder as a proper substring reads the shared
`argData` buffer, so it ends up holding the splice computed for the last
such argument. -/
theorem arch_launchChild_shared_buffer_last_splice (hfuzz : Honggfuzz)
    (placeholder fileName : String) (i : Nat) (a b : String)
    (hstdin : hfuzz.fuzzStdin = false)
    (hi : (hfuzz.cmdline.take ARGS_MAX)[i]? = some a)
    (hbuf : classifyArg false placeholder fileName a = ArgSlot.buf)
    (hlast : ((hfuzz.cmdline.take ARGS_MAX).filter
        fun x => classifyArg false placeholder fileName x == ArgSlot.buf).getLast?
      = some b) :
    (arch_launchChild_args hfuzz placeholder fileName)[i]?
      = some (spliceArg b placeholder fileName) := by
  unfold arch_launchChild_args
  rw [hstdin, List.getElem?_map, hi]
  simp [hbuf, finalArgData_eq_last_splice false placeholder fileName _ b hlast]

/-- Witness for C10: in the two-splice template `["a@@b", "c@@d"]` with input
`/f`, slot 0 holds the splice of the LAST spliced argument, `"c/f"`. -/
theorem arch_launchChild_shared_buffer_last_splice_witness :
    (arch_launchChild_args sampleHfAlias "@@" "/f")[0]?
      = some (spliceArg "c@@d" "@@" "/f") ∧
    spliceArg "c@@d" "@@" "/f" = "c/f" := by
  refine ⟨?_, by decide⟩
  exact arch_launchChild_shared_buffer_last_splice sampleHfAlias "@@" "/f" 0 "a@@b" "c@@d"
    rfl (by decide) (by decide) (by decide)
